import Mathlib

/-!
Verification of the Flux dispatcher (`src/src/stores/FluxReduceStore.js`, which
contains the `Dispatcher` class, plus the `FluxReduceStore` store wrapper).

The JavaScript `Dispatcher` is embedded shallowly:

* `DispatchToken` is `Nat`; the JS token `"ID_" ++ n` is represented by `n`
  (the `"ID_"` text is constant, so the string tokens are in bijection with
  the counter values that mint them).
* The JS objects `_callbacks`, `_isPending`, `_isHandled` are insertion-ordered
  association lists (`setKey` overwrites in place or appends, like a JS
  property write; `getKey?` returns the value of the first matching key;
  reading an absent key yields `none`, i.e. JS `undefined`, which is falsy).
* A registered callback is modelled as a function from the received payload
  (`Option P`, since JS would pass `undefined` when `_pendingPayload` is
  unset) to the list of dispatcher interactions its body performs, in order:
  `Cmd.skip` (local work), `Cmd.waitFor ids` (a `this.waitFor(ids)` call),
  `Cmd.throwErr n` (the callback throws an application error, tagged `n`),
  and `Cmd.callDispatch p` (the callback calls `this.dispatch(p)`).
* Every `invariant(cond, msg)` throw in the source is a `DispatchError`
  constructor; a thrown error aborts the enclosing evaluation exactly as a
  JS exception unwinds the stack, and `dispatch`'s `try/finally` is encoded
  explicitly.
* The mutually recursive evaluation (`dispatch` → `_invokeCallback` →
  callback body → `waitFor` → `_invokeCallback` → …) is run by a single
  fuel-indexed interpreter `exec`, structurally recursive on the fuel, so
  that concrete runs compute by `rfl`/`decide`.  `exec … = none` means the
  fuel ran out; every theorem either quantifies over all results or
  exhibits sufficient fuel.
-/

namespace Flux

/-- JS `DispatchToken` (`"ID_" ++ lastID`), represented by its counter value. -/
abbrev DispatchToken := Nat

/-- The error conditions of the dispatcher.  The first four are the
`invariant(...)` throws of the source; `notAFunction` is the JS `TypeError`
that calling an absent callback would raise (unreachable from the API);
`userError n` is an application-level error thrown by a callback body. -/
inductive DispatchError where
  | reentrantDispatch
  | notDispatching
  | invalidToken (id : DispatchToken)
  | circularDependency (id : DispatchToken)
  | notAFunction (id : DispatchToken)
  | userError (code : Nat)
  deriving DecidableEq, Repr

/-- One dispatcher interaction performed by a callback body, in order. -/
inductive Cmd (P : Type) where
  | skip
  | waitFor (ids : List DispatchToken)
  | throwErr (code : Nat)
  | callDispatch (p : P)
  deriving DecidableEq

/-- A registered callback: from the payload it receives (JS `undefined` is
`none`) to the ordered dispatcher interactions its body performs. -/
abbrev Callback (P : Type) := Option P → List (Cmd P)

/-- The `Dispatcher` instance state; field for field the JS instance fields
`_callbacks`, `_isDispatching`, `_isHandled`, `_isPending`, `_lastID`,
`_pendingPayload`. -/
structure Dispatcher (P : Type) where
  callbacks : List (DispatchToken × Callback P)
  isDispatching : Bool
  isHandled : List (DispatchToken × Bool)
  isPending : List (DispatchToken × Bool)
  lastID : Nat
  pendingPayload : Option P

/-- The JS constructor: `{}` maps, not dispatching, `_lastID = 1`. -/
def Dispatcher.init (P : Type) : Dispatcher P :=
  { callbacks := [], isDispatching := false, isHandled := [], isPending := [],
    lastID := 1, pendingPayload := none }

/-- JS property write `m[id] = v`: overwrite in place, else append. -/
def setKey {β : Type} (m : List (DispatchToken × β)) (id : DispatchToken) (v : β) :
    List (DispatchToken × β) :=
  match m with
  | [] => [(id, v)]
  | (k, w) :: rest => if k = id then (k, v) :: rest else (k, w) :: setKey rest id v

/-- JS property read `m[id]`: `none` is `undefined`. -/
def getKey? {β : Type} (m : List (DispatchToken × β)) (id : DispatchToken) : Option β :=
  match m with
  | [] => none
  | (k, v) :: rest => if k = id then some v else getKey? rest id

/-- Truthiness of `m[id]` for a boolean-valued JS object (absent ↦ false). -/
def getAssoc (m : List (DispatchToken × Bool)) (id : DispatchToken) : Bool :=
  (getKey? m id).getD false

/-- JS `delete m[id]`. -/
def eraseKey {β : Type} (m : List (DispatchToken × β)) (id : DispatchToken) :
    List (DispatchToken × β) :=
  match m with
  | [] => []
  | (k, v) :: rest => if k = id then rest else (k, v) :: eraseKey rest id

/-- `register(callback)`: mint `_lastID++`, store the callback, return the
token. -/
def register {P : Type} (s : Dispatcher P) (cb : Callback P) :
    Dispatcher P × DispatchToken :=
  let id := s.lastID
  ({ s with callbacks := setKey s.callbacks id cb, lastID := s.lastID + 1 }, id)

/-- `unregister(id)`: `invariant(this._callbacks[id], …)` then delete.  The
error result models the invariant throw (state unchanged). -/
def unregister {P : Type} (s : Dispatcher P) (id : DispatchToken) :
    Dispatcher P × Option DispatchError :=
  if (getKey? s.callbacks id).isSome then
    ({ s with callbacks := eraseKey s.callbacks id }, none)
  else
    (s, some (DispatchError.invalidToken id))

/-- `_startDispatching(payload)`: for each registered id set
`_isPending[id] = false` and `_isHandled[id] = false`, record the payload,
set `_isDispatching = true`.  Note stale entries of unregistered tokens are
left in the maps, exactly as in the source. -/
def startDispatching {P : Type} (s : Dispatcher P) (p : P) : Dispatcher P :=
  { s with
    isPending := (s.callbacks.map Prod.fst).foldl (fun m id => setKey m id false) s.isPending,
    isHandled := (s.callbacks.map Prod.fst).foldl (fun m id => setKey m id false) s.isHandled,
    pendingPayload := some p,
    isDispatching := true }

/-- `_stopDispatching()`: delete `_pendingPayload`, clear `_isDispatching`. -/
def stopDispatching {P : Type} (s : Dispatcher P) : Dispatcher P :=
  { s with pendingPayload := none, isDispatching := false }

/-- The trace of callback invocations: each entry records the token whose
callback was entered and the payload value it was handed. -/
abbrev Trace (P : Type) := List (DispatchToken × Option P)

/-- Result of running a piece of dispatcher code: `none` means the fuel ran
out; otherwise the final state, the invocation trace, and the error that
was thrown (`none` on normal return). -/
abbrev Res (P : Type) := Option (Dispatcher P × Trace P × Option DispatchError)

/-- A work item for the interpreter: one of the mutually recursive pieces of
the source.  `invoke id` is `_invokeCallback(id)`; `runBody cmds` runs the
remainder of a callback body; `waitAll ids` is the public `waitFor(ids)`
(with its `isDispatching` invariant); `waitLoop ids` is `waitFor`'s `for`
loop; `mainLoop ids` is `dispatch`'s `for…in` loop over the registered
tokens; `doDispatch p` is the public `dispatch(p)`. -/
inductive Task (P : Type) where
  | invoke (id : DispatchToken)
  | runBody (cmds : List (Cmd P))
  | waitAll (ids : List DispatchToken)
  | waitLoop (ids : List DispatchToken)
  | mainLoop (ids : List DispatchToken)
  | doDispatch (p : P)

/-- The fuel-indexed interpreter for the dispatcher, translated arm by arm
from the source:

* `invoke id`: `_isPending[id] = true; _callbacks[id](_pendingPayload);
  _isHandled[id] = true` — the handled mark is skipped when the body throws.
* `runBody`: run the callback body's interactions in order; a thrown error
  aborts the rest of the body.
* `waitAll`: `invariant(_isDispatching, …)` then the loop.
* `waitLoop`: for each id — pending ∧ handled ⇒ skip; pending ∧ ¬handled ⇒
  `CircularDependencyError id`; unregistered ⇒ `InvalidTokenError id`;
  otherwise `_invokeCallback(id)`.
* `mainLoop`: for each id — skip if pending, else `_invokeCallback(id)`.
* `doDispatch`: `invariant(!_isDispatching, …)`; `_startDispatching`;
  the loop inside `try`; `_stopDispatching()` in `finally`, re-throwing the
  loop's error afterwards. -/
def exec {P : Type} : Nat → Dispatcher P → Task P → Res P
  | 0, _, _ => none
  | f + 1, s, t =>
    match t with
    | Task.invoke id =>
      let s1 := { s with isPending := setKey s.isPending id true }
      match getKey? s1.callbacks id with
      | none => some (s1, [], some (DispatchError.notAFunction id))
      | some cb =>
        match exec f s1 (Task.runBody (cb s1.pendingPayload)) with
        | none => none
        | some (s2, tr, some e) => some (s2, (id, s1.pendingPayload) :: tr, some e)
        | some (s2, tr, none) =>
          some ({ s2 with isHandled := setKey s2.isHandled id true },
                (id, s1.pendingPayload) :: tr, none)
    | Task.runBody [] => some (s, [], none)
    | Task.runBody (c :: rest) =>
      match c with
      | Cmd.skip => exec f s (Task.runBody rest)
      | Cmd.throwErr n => some (s, [], some (DispatchError.userError n))
      | Cmd.waitFor ids =>
        match exec f s (Task.waitAll ids) with
        | none => none
        | some (s2, tr, some e) => some (s2, tr, some e)
        | some (s2, tr, none) =>
          match exec f s2 (Task.runBody rest) with
          | none => none
          | some (s3, tr2, e) => some (s3, tr ++ tr2, e)
      | Cmd.callDispatch p =>
        match exec f s (Task.doDispatch p) with
        | none => none
        | some (s2, tr, some e) => some (s2, tr, some e)
        | some (s2, tr, none) =>
          match exec f s2 (Task.runBody rest) with
          | none => none
          | some (s3, tr2, e) => some (s3, tr ++ tr2, e)
    | Task.waitAll ids =>
      if s.isDispatching = true then exec f s (Task.waitLoop ids)
      else some (s, [], some DispatchError.notDispatching)
    | Task.waitLoop [] => some (s, [], none)
    | Task.waitLoop (id :: rest) =>
      if getAssoc s.isPending id = true then
        if getAssoc s.isHandled id = true then exec f s (Task.waitLoop rest)
        else some (s, [], some (DispatchError.circularDependency id))
      else if (getKey? s.callbacks id).isNone then
        some (s, [], some (DispatchError.invalidToken id))
      else
        match exec f s (Task.invoke id) with
        | none => none
        | some (s2, tr, some e) => some (s2, tr, some e)
        | some (s2, tr, none) =>
          match exec f s2 (Task.waitLoop rest) with
          | none => none
          | some (s3, tr2, e) => some (s3, tr ++ tr2, e)
    | Task.mainLoop [] => some (s, [], none)
    | Task.mainLoop (id :: rest) =>
      if getAssoc s.isPending id = true then exec f s (Task.mainLoop rest)
      else
        match exec f s (Task.invoke id) with
        | none => none
        | some (s2, tr, some e) => some (s2, tr, some e)
        | some (s2, tr, none) =>
          match exec f s2 (Task.mainLoop rest) with
          | none => none
          | some (s3, tr2, e) => some (s3, tr ++ tr2, e)
    | Task.doDispatch p =>
      if s.isDispatching = true then
        some (s, [], some DispatchError.reentrantDispatch)
      else
        let s1 := startDispatching s p
        match exec f s1 (Task.mainLoop (s1.callbacks.map Prod.fst)) with
        | none => none
        | some (s2, tr, e) => some (stopDispatching s2, tr, e)

/-- `dispatch(payload)`. -/
def dispatch {P : Type} (f : Nat) (s : Dispatcher P) (p : P) : Res P :=
  exec f s (Task.doDispatch p)

/-- `waitFor(ids)`. -/
def waitFor {P : Type} (f : Nat) (s : Dispatcher P) (ids : List DispatchToken) : Res P :=
  exec f s (Task.waitAll ids)

/-- `_invokeCallback(id)`. -/
def invokeCallback {P : Type} (f : Nat) (s : Dispatcher P) (id : DispatchToken) : Res P :=
  exec f s (Task.invoke id)

/-- The body of a store that does nothing but `waitFor([next])`. -/
def chainBody {P : Type} (next : DispatchToken) : Callback P :=
  fun _ => [Cmd.waitFor [next]]

/-- The registry of a `waitFor` cycle: each listed token waits for the next
one, and the last waits for `first`. -/
def cycleBodies {P : Type} (first : DispatchToken) :
    List DispatchToken → List (DispatchToken × Callback P)
  | [] => []
  | [t] => [(t, chainBody first)]
  | t :: u :: rest => (t, chainBody u) :: cycleBodies first (u :: rest)

/-- `ChainReg cbs first l`: each token of `l` is registered in `cbs` with the
body that waits for its successor in `l`, the last one waiting for `first`. -/
def ChainReg {P : Type} (cbs : List (DispatchToken × Callback P))
    (first : DispatchToken) : List DispatchToken → Prop
  | [] => True
  | [t] => getKey? cbs t = some (chainBody first)
  | t :: u :: rest => getKey? cbs t = some (chainBody u) ∧ ChainReg cbs first (u :: rest)

/-- A top-level operation on a dispatcher instance over its lifetime. -/
inductive DOp (P : Type) where
  | opRegister (cb : Callback P)
  | opUnregister (id : DispatchToken)
  | opDispatch (fuel : Nat) (p : P)

/-- Run a sequence of top-level operations, collecting the tokens returned by
the `register` calls in order.  A `dispatch` that runs out of fuel is
dropped (the fuel is a modelling artifact; the source has no such case). -/
def runOps {P : Type} (s : Dispatcher P) : List (DOp P) → Dispatcher P × List DispatchToken
  | [] => (s, [])
  | DOp.opRegister cb :: rest =>
    let r := register s cb
    let rr := runOps r.1 rest
    (rr.1, r.2 :: rr.2)
  | DOp.opUnregister id :: rest => runOps (unregister s id).1 rest
  | DOp.opDispatch f p :: rest =>
    match dispatch f s p with
    | none => runOps s rest
    | some r => runOps r.1 rest

/-- Guard under which the interpreter is entered on a task: `_invokeCallback`
is only ever called on a token that is not yet pending (both call sites in
the source check this). -/
def TaskGuard {P : Type} (s : Dispatcher P) : Task P → Prop
  | Task.invoke id => getAssoc s.isPending id = false
  | _ => True

/-- The `FluxReduceStore` data relevant to `__invokeOnDispatch`: the
overridable `reduce` (returning `none` models a JS `undefined` result) and
`areEqual` methods, the `_state` field and the `__changed` flag. -/
structure FluxReduceStore (S A : Type) where
  reduce : S → A → Option S
  areEqual : S → S → Bool
  state : S
  changed : Bool

/-- `FluxReduceStore.__invokeOnDispatch(action)`: clear `__changed`; run
`reduce`; if it returned `undefined` the `invariant` throws (result `none`)
with `_state` untouched and nothing emitted; otherwise update `_state` and
set `__changed` when the ending state is not `areEqual` to the starting
one, and finally report (`some emitted`) whether the change event was
emitted, i.e. the value of `__changed`. -/
def invokeOnDispatch {S A : Type} (st : FluxReduceStore S A) (action : A) :
    FluxReduceStore S A × Option Bool :=
  let st1 := { st with changed := false }
  match st1.reduce st1.state action with
  | none => (st1, none)
  | some endingState =>
    let st2 :=
      if st1.areEqual st1.state endingState = true then st1
      else { st1 with state := endingState, changed := true }
    (st2, some st2.changed)

end Flux

namespace Flux

/-! ### Association-list lemmas -/

@[simp] theorem getKey?_setKey_self {β : Type} (m : List (DispatchToken × β))
    (k : DispatchToken) (v : β) : getKey? (setKey m k v) k = some v := by
  induction m with
  | nil => simp [setKey, getKey?]
  | cons kv rest ih =>
    obtain ⟨a, b⟩ := kv
    by_cases h : a = k
    · subst h; simp [setKey, getKey?]
    · simp [setKey, getKey?, h, ih]

theorem getKey?_setKey_ne {β : Type} (m : List (DispatchToken × β))
    {j k : DispatchToken} (v : β) (h : j ≠ k) :
    getKey? (setKey m k v) j = getKey? m j := by
  induction m with
  | nil =>
    simp only [setKey, getKey?]
    rw [if_neg (fun hkj => h hkj.symm)]
  | cons kv rest ih =>
    obtain ⟨a, b⟩ := kv
    by_cases ha : a = k
    · subst ha
      simp only [setKey, if_pos rfl, getKey?]
      rw [if_neg (fun hh => h hh.symm), if_neg (fun hh => h hh.symm)]
    · simp only [setKey, if_neg ha, getKey?, ih]

@[simp] theorem getAssoc_setKey_self (m : List (DispatchToken × Bool))
    (k : DispatchToken) (v : Bool) : getAssoc (setKey m k v) k = v := by
  simp [getAssoc]

theorem getAssoc_setKey_ne (m : List (DispatchToken × Bool))
    {j k : DispatchToken} (v : Bool) (h : j ≠ k) :
    getAssoc (setKey m k v) j = getAssoc m j := by
  simp [getAssoc, getKey?_setKey_ne m v h]

theorem getKey?_foldFalse_notMem (ids : List DispatchToken)
    (m : List (DispatchToken × Bool)) (x : DispatchToken) (h : x ∉ ids) :
    getKey? (ids.foldl (fun m id => setKey m id false) m) x = getKey? m x := by
  induction ids generalizing m with
  | nil => rfl
  | cons y rest ih =>
    have hx : x ≠ y := fun hxy => h (hxy ▸ List.mem_cons_self y rest)
    have hr : x ∉ rest := fun hr => h (List.mem_cons_of_mem y hr)
    simp only [List.foldl_cons]
    rw [ih _ hr, getKey?_setKey_ne m false hx]

theorem getKey?_foldFalse_mem (ids : List DispatchToken)
    (m : List (DispatchToken × Bool)) (x : DispatchToken) (h : x ∈ ids) :
    getKey? (ids.foldl (fun m id => setKey m id false) m) x = some false := by
  induction ids generalizing m with
  | nil => cases h
  | cons y rest ih =>
    simp only [List.foldl_cons]
    by_cases hr : x ∈ rest
    · exact ih _ hr
    · have hx : x = y := by
        rcases List.mem_cons.mp h with h1 | h2
        · exact h1
        · exact absurd h2 hr
      subst hx
      rw [getKey?_foldFalse_notMem rest _ x hr, getKey?_setKey_self]

theorem getAssoc_foldFalse_mem (ids : List DispatchToken)
    (m : List (DispatchToken × Bool)) (x : DispatchToken) (h : x ∈ ids) :
    getAssoc (ids.foldl (fun m id => setKey m id false) m) x = false := by
  simp [getAssoc, getKey?_foldFalse_mem ids m x h]

theorem getKey?_of_mem {β : Type} (m : List (DispatchToken × β))
    (k : DispatchToken) (v : β) (hm : (k, v) ∈ m)
    (hnd : (m.map Prod.fst).Nodup) : getKey? m k = some v := by
  induction m with
  | nil => cases hm
  | cons kv rest ih =>
    obtain ⟨a, b⟩ := kv
    simp only [List.map_cons, List.nodup_cons] at hnd
    rcases List.mem_cons.mp hm with h1 | h2
    · rw [Prod.mk.injEq] at h1
      obtain ⟨rfl, rfl⟩ := h1
      simp [getKey?]
    · have hak : a ≠ k := by
        intro hE
        subst hE
        exact hnd.1 (List.mem_map.mpr ⟨(a, v), h2, rfl⟩)
      simp only [getKey?, if_neg hak]
      exact ih h2 hnd.2

theorem exists_of_mem_keys {β : Type} {m : List (DispatchToken × β)}
    {k : DispatchToken} (h : k ∈ m.map Prod.fst) : ∃ v, (k, v) ∈ m := by
  rcases List.mem_map.mp h with ⟨⟨a, b⟩, hm, rfl⟩
  exact ⟨b, hm⟩

/-! ### One-step unfolding lemmas for the interpreter -/

theorem exec_zeroFuel {P : Type} (s : Dispatcher P) (t : Task P) : exec 0 s t = none := rfl

theorem exec_runBody_nil {P : Type} (f : Nat) (s : Dispatcher P) :
    exec (f + 1) s (Task.runBody []) = some (s, [], none) := rfl

theorem exec_runBody_skip {P : Type} (f : Nat) (s : Dispatcher P) (rest : List (Cmd P)) :
    exec (f + 1) s (Task.runBody (Cmd.skip :: rest)) = exec f s (Task.runBody rest) := rfl

theorem exec_runBody_throw {P : Type} (f : Nat) (s : Dispatcher P) (n : Nat)
    (rest : List (Cmd P)) :
    exec (f + 1) s (Task.runBody (Cmd.throwErr n :: rest)) =
      some (s, [], some (DispatchError.userError n)) := rfl

theorem exec_runBody_waitFor_err {P : Type} {f : Nat} {s s2 : Dispatcher P}
    {ids : List DispatchToken} {tr : Trace P} {e : DispatchError} (rest : List (Cmd P))
    (h : exec f s (Task.waitAll ids) = some (s2, tr, some e)) :
    exec (f + 1) s (Task.runBody (Cmd.waitFor ids :: rest)) = some (s2, tr, some e) := by
  simp [exec, h]

theorem exec_runBody_waitFor_ok {P : Type} {f : Nat} {s s2 s3 : Dispatcher P}
    {ids : List DispatchToken} {tr tr2 : Trace P} {e : Option DispatchError}
    {rest : List (Cmd P)}
    (h : exec f s (Task.waitAll ids) = some (s2, tr, none))
    (hk : exec f s2 (Task.runBody rest) = some (s3, tr2, e)) :
    exec (f + 1) s (Task.runBody (Cmd.waitFor ids :: rest)) = some (s3, tr ++ tr2, e) := by
  simp [exec, h, hk]

theorem exec_runBody_callDispatch_err {P : Type} {f : Nat} {s s2 : Dispatcher P}
    {p : P} {tr : Trace P} {e : DispatchError} (rest : List (Cmd P))
    (h : exec f s (Task.doDispatch p) = some (s2, tr, some e)) :
    exec (f + 1) s (Task.runBody (Cmd.callDispatch p :: rest)) = some (s2, tr, some e) := by
  simp [exec, h]

theorem exec_runBody_callDispatch_ok {P : Type} {f : Nat} {s s2 s3 : Dispatcher P}
    {p : P} {tr tr2 : Trace P} {e : Option DispatchError} {rest : List (Cmd P)}
    (h : exec f s (Task.doDispatch p) = some (s2, tr, none))
    (hk : exec f s2 (Task.runBody rest) = some (s3, tr2, e)) :
    exec (f + 1) s (Task.runBody (Cmd.callDispatch p :: rest)) = some (s3, tr ++ tr2, e) := by
  simp [exec, h, hk]

theorem exec_waitAll_dispatching {P : Type} {s : Dispatcher P} (f : Nat)
    (ids : List DispatchToken) (h : s.isDispatching = true) :
    exec (f + 1) s (Task.waitAll ids) = exec f s (Task.waitLoop ids) := by
  simp [exec, h]

theorem exec_waitAll_not {P : Type} {s : Dispatcher P} (f : Nat)
    (ids : List DispatchToken) (h : s.isDispatching = false) :
    exec (f + 1) s (Task.waitAll ids) = some (s, [], some DispatchError.notDispatching) := by
  simp [exec, h]

theorem exec_waitLoop_nil {P : Type} (f : Nat) (s : Dispatcher P) :
    exec (f + 1) s (Task.waitLoop []) = some (s, [], none) := rfl

theorem exec_waitLoop_skip {P : Type} {s : Dispatcher P} {id : DispatchToken} (f : Nat)
    (rest : List DispatchToken) (hp : getAssoc s.isPending id = true)
    (hh : getAssoc s.isHandled id = true) :
    exec (f + 1) s (Task.waitLoop (id :: rest)) = exec f s (Task.waitLoop rest) := by
  simp [exec, hp, hh]

theorem exec_waitLoop_circular {P : Type} {s : Dispatcher P} {id : DispatchToken} (f : Nat)
    (rest : List DispatchToken) (hp : getAssoc s.isPending id = true)
    (hh : getAssoc s.isHandled id = false) :
    exec (f + 1) s (Task.waitLoop (id :: rest)) =
      some (s, [], some (DispatchError.circularDependency id)) := by
  simp [exec, hp, hh]

theorem exec_waitLoop_invalid {P : Type} {s : Dispatcher P} {id : DispatchToken} (f : Nat)
    (rest : List DispatchToken) (hp : getAssoc s.isPending id = false)
    (hr : getKey? s.callbacks id = none) :
    exec (f + 1) s (Task.waitLoop (id :: rest)) =
      some (s, [], some (DispatchError.invalidToken id)) := by
  simp [exec, hp, hr]

theorem exec_waitLoop_invoke_err {P : Type} {f : Nat} {s s2 : Dispatcher P}
    {id : DispatchToken} {tr : Trace P} {e : DispatchError} (rest : List DispatchToken)
    (hp : getAssoc s.isPending id = false) (hr : (getKey? s.callbacks id).isNone = false)
    (hi : exec f s (Task.invoke id) = some (s2, tr, some e)) :
    exec (f + 1) s (Task.waitLoop (id :: rest)) = some (s2, tr, some e) := by
  simp [exec, hp, hr, hi]

theorem exec_waitLoop_invoke_ok {P : Type} {f : Nat} {s s2 s3 : Dispatcher P}
    {id : DispatchToken} {tr tr2 : Trace P} {e : Option DispatchError}
    {rest : List DispatchToken}
    (hp : getAssoc s.isPending id = false) (hr : (getKey? s.callbacks id).isNone = false)
    (hi : exec f s (Task.invoke id) = some (s2, tr, none))
    (hk : exec f s2 (Task.waitLoop rest) = some (s3, tr2, e)) :
    exec (f + 1) s (Task.waitLoop (id :: rest)) = some (s3, tr ++ tr2, e) := by
  simp [exec, hp, hr, hi, hk]

theorem exec_mainLoop_nil {P : Type} (f : Nat) (s : Dispatcher P) :
    exec (f + 1) s (Task.mainLoop []) = some (s, [], none) := rfl

theorem exec_mainLoop_pending {P : Type} {s : Dispatcher P} {id : DispatchToken} (f : Nat)
    (rest : List DispatchToken) (hp : getAssoc s.isPending id = true) :
    exec (f + 1) s (Task.mainLoop (id :: rest)) = exec f s (Task.mainLoop rest) := by
  simp [exec, hp]

theorem exec_mainLoop_invoke_err {P : Type} {f : Nat} {s s2 : Dispatcher P}
    {id : DispatchToken} {tr : Trace P} {e : DispatchError} (rest : List DispatchToken)
    (hp : getAssoc s.isPending id = false)
    (hi : exec f s (Task.invoke id) = some (s2, tr, some e)) :
    exec (f + 1) s (Task.mainLoop (id :: rest)) = some (s2, tr, some e) := by
  simp [exec, hp, hi]

theorem exec_mainLoop_invoke_ok {P : Type} {f : Nat} {s s2 s3 : Dispatcher P}
    {id : DispatchToken} {tr tr2 : Trace P} {e : Option DispatchError}
    {rest : List DispatchToken}
    (hp : getAssoc s.isPending id = false)
    (hi : exec f s (Task.invoke id) = some (s2, tr, none))
    (hk : exec f s2 (Task.mainLoop rest) = some (s3, tr2, e)) :
    exec (f + 1) s (Task.mainLoop (id :: rest)) = some (s3, tr ++ tr2, e) := by
  simp [exec, hp, hi, hk]

theorem exec_invoke_missing {P : Type} {s : Dispatcher P} {id : DispatchToken} (f : Nat)
    (hcb : getKey? s.callbacks id = none) :
    exec (f + 1) s (Task.invoke id) =
      some ({ s with isPending := setKey s.isPending id true }, [],
            some (DispatchError.notAFunction id)) := by
  simp [exec, hcb]

theorem exec_invoke_err {P : Type} {f : Nat} {s s2 : Dispatcher P} {id : DispatchToken}
    {cb : Callback P} {tr : Trace P} {e : DispatchError}
    (hcb : getKey? s.callbacks id = some cb)
    (hb : exec f { s with isPending := setKey s.isPending id true }
            (Task.runBody (cb s.pendingPayload)) = some (s2, tr, some e)) :
    exec (f + 1) s (Task.invoke id) = some (s2, (id, s.pendingPayload) :: tr, some e) := by
  simp [exec, hcb, hb]

theorem exec_invoke_ok {P : Type} {f : Nat} {s s2 : Dispatcher P} {id : DispatchToken}
    {cb : Callback P} {tr : Trace P}
    (hcb : getKey? s.callbacks id = some cb)
    (hb : exec f { s with isPending := setKey s.isPending id true }
            (Task.runBody (cb s.pendingPayload)) = some (s2, tr, none)) :
    exec (f + 1) s (Task.invoke id) =
      some ({ s2 with isHandled := setKey s2.isHandled id true },
            (id, s.pendingPayload) :: tr, none) := by
  simp [exec, hcb, hb]

theorem exec_doDispatch_reentrant {P : Type} {s : Dispatcher P} (f : Nat) (p : P)
    (h : s.isDispatching = true) :
    exec (f + 1) s (Task.doDispatch p) =
      some (s, [], some DispatchError.reentrantDispatch) := by
  simp [exec, h]

theorem exec_doDispatch_run {P : Type} {f : Nat} {s s2 : Dispatcher P} {p : P}
    {tr : Trace P} {e : Option DispatchError} (h : s.isDispatching = false)
    (hl : exec f (startDispatching s p)
            (Task.mainLoop ((startDispatching s p).callbacks.map Prod.fst)) =
          some (s2, tr, e)) :
    exec (f + 1) s (Task.doDispatch p) = some (stopDispatching s2, tr, e) := by
  simp [exec, h, hl]

/-! ### Fuel monotonicity and determinism -/

theorem exec_mono {P : Type} : ∀ (f : Nat) (s : Dispatcher P) (t : Task P)
    (r : Dispatcher P × Trace P × Option DispatchError),
    exec f s t = some r → exec (f + 1) s t = some r := by
  intro f
  induction f with
  | zero =>
    intro s t r h
    rw [exec_zeroFuel] at h
    cases h
  | succ g ih =>
    intro s t r h
    cases t with
    | invoke id =>
      cases hcb : getKey? s.callbacks id with
      | none =>
        rw [exec_invoke_missing g hcb] at h
        rw [exec_invoke_missing (g + 1) hcb]
        exact h
      | some cb =>
        cases hb : exec g { s with isPending := setKey s.isPending id true }
            (Task.runBody (cb s.pendingPayload)) with
        | none => simp [exec, hcb, hb] at h
        | some rb =>
          obtain ⟨s2, tr, e⟩ := rb
          cases e with
          | some err =>
            rw [exec_invoke_err hcb hb] at h
            rw [exec_invoke_err hcb (ih _ _ _ hb)]
            exact h
          | none =>
            rw [exec_invoke_ok hcb hb] at h
            rw [exec_invoke_ok hcb (ih _ _ _ hb)]
            exact h
    | runBody cmds =>
      cases cmds with
      | nil =>
        rw [exec_runBody_nil] at h
        rw [exec_runBody_nil]
        exact h
      | cons c rest =>
        cases c with
        | skip =>
          rw [exec_runBody_skip] at h
          rw [exec_runBody_skip]
          exact ih _ _ _ h
        | throwErr n =>
          rw [exec_runBody_throw] at h
          rw [exec_runBody_throw]
          exact h
        | waitFor ids =>
          cases hw : exec g s (Task.waitAll ids) with
          | none => simp [exec, hw] at h
          | some rw' =>
            obtain ⟨s2, tr, e⟩ := rw'
            cases e with
            | some err =>
              rw [exec_runBody_waitFor_err rest hw] at h
              rw [exec_runBody_waitFor_err rest (ih _ _ _ hw)]
              exact h
            | none =>
              cases hk : exec g s2 (Task.runBody rest) with
              | none => simp [exec, hw, hk] at h
              | some rk =>
                obtain ⟨s3, tr2, e2⟩ := rk
                rw [exec_runBody_waitFor_ok hw hk] at h
                rw [exec_runBody_waitFor_ok (ih _ _ _ hw) (ih _ _ _ hk)]
                exact h
        | callDispatch p =>
          cases hw : exec g s (Task.doDispatch p) with
          | none => simp [exec, hw] at h
          | some rw' =>
            obtain ⟨s2, tr, e⟩ := rw'
            cases e with
            | some err =>
              rw [exec_runBody_callDispatch_err rest hw] at h
              rw [exec_runBody_callDispatch_err rest (ih _ _ _ hw)]
              exact h
            | none =>
              cases hk : exec g s2 (Task.runBody rest) with
              | none => simp [exec, hw, hk] at h
              | some rk =>
                obtain ⟨s3, tr2, e2⟩ := rk
                rw [exec_runBody_callDispatch_ok hw hk] at h
                rw [exec_runBody_callDispatch_ok (ih _ _ _ hw) (ih _ _ _ hk)]
                exact h
    | waitAll ids =>
      cases hd : s.isDispatching with
      | false =>
        rw [exec_waitAll_not g ids hd] at h
        rw [exec_waitAll_not (g + 1) ids hd]
        exact h
      | true =>
        rw [exec_waitAll_dispatching g ids hd] at h
        rw [exec_waitAll_dispatching (g + 1) ids hd]
        exact ih _ _ _ h
    | waitLoop ids =>
      cases ids with
      | nil =>
        rw [exec_waitLoop_nil] at h
        rw [exec_waitLoop_nil]
        exact h
      | cons id rest =>
        cases hp : getAssoc s.isPending id with
        | true =>
          cases hh : getAssoc s.isHandled id with
          | true =>
            rw [exec_waitLoop_skip g rest hp hh] at h
            rw [exec_waitLoop_skip (g + 1) rest hp hh]
            exact ih _ _ _ h
          | false =>
            rw [exec_waitLoop_circular g rest hp hh] at h
            rw [exec_waitLoop_circular (g + 1) rest hp hh]
            exact h
        | false =>
          cases hr : getKey? s.callbacks id with
          | none =>
            rw [exec_waitLoop_invalid g rest hp hr] at h
            rw [exec_waitLoop_invalid (g + 1) rest hp hr]
            exact h
          | some cb =>
            have hrn : (getKey? s.callbacks id).isNone = false := by rw [hr]; rfl
            cases hi : exec g s (Task.invoke id) with
            | none => simp [exec, hp, hrn, hi] at h
            | some ri =>
              obtain ⟨s2, tr, e⟩ := ri
              cases e with
              | some err =>
                rw [exec_waitLoop_invoke_err rest hp hrn hi] at h
                rw [exec_waitLoop_invoke_err rest hp hrn (ih _ _ _ hi)]
                exact h
              | none =>
                cases hk : exec g s2 (Task.waitLoop rest) with
                | none => simp [exec, hp, hrn, hi, hk] at h
                | some rk =>
                  obtain ⟨s3, tr2, e2⟩ := rk
                  rw [exec_waitLoop_invoke_ok hp hrn hi hk] at h
                  rw [exec_waitLoop_invoke_ok hp hrn (ih _ _ _ hi) (ih _ _ _ hk)]
                  exact h
    | mainLoop ids =>
      cases ids with
      | nil =>
        rw [exec_mainLoop_nil] at h
        rw [exec_mainLoop_nil]
        exact h
      | cons id rest =>
        cases hp : getAssoc s.isPending id with
        | true =>
          rw [exec_mainLoop_pending g rest hp] at h
          rw [exec_mainLoop_pending (g + 1) rest hp]
          exact ih _ _ _ h
        | false =>
          cases hi : exec g s (Task.invoke id) with
          | none => simp [exec, hp, hi] at h
          | some ri =>
            obtain ⟨s2, tr, e⟩ := ri
            cases e with
            | some err =>
              rw [exec_mainLoop_invoke_err rest hp hi] at h
              rw [exec_mainLoop_invoke_err rest hp (ih _ _ _ hi)]
              exact h
            | none =>
              cases hk : exec g s2 (Task.mainLoop rest) with
              | none => simp [exec, hp, hi, hk] at h
              | some rk =>
                obtain ⟨s3, tr2, e2⟩ := rk
                rw [exec_mainLoop_invoke_ok hp hi hk] at h
                rw [exec_mainLoop_invoke_ok hp (ih _ _ _ hi) (ih _ _ _ hk)]
                exact h
    | doDispatch p =>
      cases hd : s.isDispatching with
      | true =>
        rw [exec_doDispatch_reentrant g p hd] at h
        rw [exec_doDispatch_reentrant (g + 1) p hd]
        exact h
      | false =>
        cases hl : exec g (startDispatching s p)
            (Task.mainLoop ((startDispatching s p).callbacks.map Prod.fst)) with
        | none => simp [exec, hd, hl] at h
        | some rl =>
          obtain ⟨s2, tr, e⟩ := rl
          rw [exec_doDispatch_run hd hl] at h
          rw [exec_doDispatch_run hd (ih _ _ _ hl)]
          exact h

theorem exec_mono_le {P : Type} {f g : Nat} {s : Dispatcher P} {t : Task P}
    {r : Dispatcher P × Trace P × Option DispatchError} (hle : f ≤ g)
    (h : exec f s t = some r) : exec g s t = some r := by
  induction hle with
  | refl => exact h
  | step _ ih => exact exec_mono _ _ _ _ ih

/-- The interpreter is deterministic: any two sufficient fuels agree. -/
theorem exec_det {P : Type} {f1 f2 : Nat} {s : Dispatcher P} {t : Task P}
    {r1 r2 : Dispatcher P × Trace P × Option DispatchError}
    (h1 : exec f1 s t = some r1) (h2 : exec f2 s t = some r2) : r1 = r2 := by
  rcases Nat.le_total f1 f2 with hle | hle
  · have := exec_mono_le hle h1
    rw [this] at h2
    exact Option.some.inj h2
  · have := exec_mono_le hle h2
    rw [this] at h1
    exact (Option.some.inj h1).symm

/-! ### Invariant preservation

While `_isDispatching` is true the interpreter only ever mutates the state by
setting an `_isPending` entry to true, or setting the `_isHandled` entry of a
token that was not pending when its invocation began (a nested `dispatch`
fails its reentrancy invariant without touching the state).  Any predicate
stable under those two updates is therefore preserved, and `_isDispatching`
stays true. -/

theorem exec_preserve {P : Type} (Q : Dispatcher P → Prop)
    (Hpend : ∀ (s : Dispatcher P) (j : DispatchToken), Q s →
      Q { s with isPending := setKey s.isPending j true })
    (Hhand : ∀ (s s2 : Dispatcher P) (j : DispatchToken), Q s →
      getAssoc s.isPending j = false → Q s2 →
      Q { s2 with isHandled := setKey s2.isHandled j true }) :
    ∀ (f : Nat) (s : Dispatcher P) (t : Task P) (s' : Dispatcher P) (tr : Trace P)
      (e : Option DispatchError), s.isDispatching = true → Q s → TaskGuard s t →
      exec f s t = some (s', tr, e) → Q s' ∧ s'.isDispatching = true := by
  intro f
  induction f with
  | zero =>
    intro s t s' tr e _ _ _ h
    rw [exec_zeroFuel] at h
    cases h
  | succ g ih =>
    intro s t s' tr e hd hq hguard h
    cases t with
    | invoke id =>
      have hg : getAssoc s.isPending id = false := hguard
      cases hcb : getKey? s.callbacks id with
      | none =>
        rw [exec_invoke_missing g hcb] at h
        simp only [Option.some.injEq, Prod.mk.injEq] at h
        obtain ⟨h1, _, _⟩ := h
        subst h1
        exact ⟨Hpend s id hq, hd⟩
      | some cb =>
        cases hb : exec g { s with isPending := setKey s.isPending id true }
            (Task.runBody (cb s.pendingPayload)) with
        | none => simp [exec, hcb, hb] at h
        | some rb =>
          obtain ⟨s2, tr0, e0⟩ := rb
          have hsub := ih { s with isPending := setKey s.isPending id true }
            (Task.runBody (cb s.pendingPayload)) s2 tr0 e0 hd (Hpend s id hq) trivial hb
          cases e0 with
          | some err =>
            rw [exec_invoke_err hcb hb] at h
            simp only [Option.some.injEq, Prod.mk.injEq] at h
            obtain ⟨h1, _, _⟩ := h
            subst h1
            exact hsub
          | none =>
            rw [exec_invoke_ok hcb hb] at h
            simp only [Option.some.injEq, Prod.mk.injEq] at h
            obtain ⟨h1, _, _⟩ := h
            subst h1
            exact ⟨Hhand s s2 id hq hg hsub.1, hsub.2⟩
    | runBody cmds =>
      cases cmds with
      | nil =>
        rw [exec_runBody_nil] at h
        simp only [Option.some.injEq, Prod.mk.injEq] at h
        obtain ⟨h1, _, _⟩ := h
        subst h1
        exact ⟨hq, hd⟩
      | cons c rest =>
        cases c with
        | skip =>
          rw [exec_runBody_skip] at h
          exact ih s (Task.runBody rest) s' tr e hd hq trivial h
        | throwErr n =>
          rw [exec_runBody_throw] at h
          simp only [Option.some.injEq, Prod.mk.injEq] at h
          obtain ⟨h1, _, _⟩ := h
          subst h1
          exact ⟨hq, hd⟩
        | waitFor ids =>
          cases hw : exec g s (Task.waitAll ids) with
          | none => simp [exec, hw] at h
          | some rw' =>
            obtain ⟨s2, tr0, e0⟩ := rw'
            have hsub := ih s (Task.waitAll ids) s2 tr0 e0 hd hq trivial hw
            cases e0 with
            | some err =>
              rw [exec_runBody_waitFor_err rest hw] at h
              simp only [Option.some.injEq, Prod.mk.injEq] at h
              obtain ⟨h1, _, _⟩ := h
              subst h1
              exact hsub
            | none =>
              cases hk : exec g s2 (Task.runBody rest) with
              | none => simp [exec, hw, hk] at h
              | some rk =>
                obtain ⟨s3, tr2, e2⟩ := rk
                rw [exec_runBody_waitFor_ok hw hk] at h
                simp only [Option.some.injEq, Prod.mk.injEq] at h
                obtain ⟨h1, _, _⟩ := h
                subst h1
                exact ih s2 (Task.runBody rest) s3 tr2 e2 hsub.2 hsub.1 trivial hk
        | callDispatch p =>
          cases hw : exec g s (Task.doDispatch p) with
          | none => simp [exec, hw] at h
          | some rw' =>
            obtain ⟨s2, tr0, e0⟩ := rw'
            have hsub := ih s (Task.doDispatch p) s2 tr0 e0 hd hq trivial hw
            cases e0 with
            | some err =>
              rw [exec_runBody_callDispatch_err rest hw] at h
              simp only [Option.some.injEq, Prod.mk.injEq] at h
              obtain ⟨h1, _, _⟩ := h
              subst h1
              exact hsub
            | none =>
              cases hk : exec g s2 (Task.runBody rest) with
              | none => simp [exec, hw, hk] at h
              | some rk =>
                obtain ⟨s3, tr2, e2⟩ := rk
                rw [exec_runBody_callDispatch_ok hw hk] at h
                simp only [Option.some.injEq, Prod.mk.injEq] at h
                obtain ⟨h1, _, _⟩ := h
                subst h1
                exact ih s2 (Task.runBody rest) s3 tr2 e2 hsub.2 hsub.1 trivial hk
    | waitAll ids =>
      rw [exec_waitAll_dispatching g ids hd] at h
      exact ih s (Task.waitLoop ids) s' tr e hd hq trivial h
    | waitLoop ids =>
      cases ids with
      | nil =>
        rw [exec_waitLoop_nil] at h
        simp only [Option.some.injEq, Prod.mk.injEq] at h
        obtain ⟨h1, _, _⟩ := h
        subst h1
        exact ⟨hq, hd⟩
      | cons id rest =>
        cases hp : getAssoc s.isPending id with
        | true =>
          cases hh : getAssoc s.isHandled id with
          | true =>
            rw [exec_waitLoop_skip g rest hp hh] at h
            exact ih s (Task.waitLoop rest) s' tr e hd hq trivial h
          | false =>
            rw [exec_waitLoop_circular g rest hp hh] at h
            simp only [Option.some.injEq, Prod.mk.injEq] at h
            obtain ⟨h1, _, _⟩ := h
            subst h1
            exact ⟨hq, hd⟩
        | false =>
          cases hr : getKey? s.callbacks id with
          | none =>
            rw [exec_waitLoop_invalid g rest hp hr] at h
            simp only [Option.some.injEq, Prod.mk.injEq] at h
            obtain ⟨h1, _, _⟩ := h
            subst h1
            exact ⟨hq, hd⟩
          | some cb =>
            have hrn : (getKey? s.callbacks id).isNone = false := by rw [hr]; rfl
            cases hi : exec g s (Task.invoke id) with
            | none => simp [exec, hp, hrn, hi] at h
            | some ri =>
              obtain ⟨s2, tr0, e0⟩ := ri
              have hsub := ih s (Task.invoke id) s2 tr0 e0 hd hq hp hi
              cases e0 with
              | some err =>
                rw [exec_waitLoop_invoke_err rest hp hrn hi] at h
                simp only [Option.some.injEq, Prod.mk.injEq] at h
                obtain ⟨h1, _, _⟩ := h
                subst h1
                exact hsub
              | none =>
                cases hk : exec g s2 (Task.waitLoop rest) with
                | none => simp [exec, hp, hrn, hi, hk] at h
                | some rk =>
                  obtain ⟨s3, tr2, e2⟩ := rk
                  rw [exec_waitLoop_invoke_ok hp hrn hi hk] at h
                  simp only [Option.some.injEq, Prod.mk.injEq] at h
                  obtain ⟨h1, _, _⟩ := h
                  subst h1
                  exact ih s2 (Task.waitLoop rest) s3 tr2 e2 hsub.2 hsub.1 trivial hk
    | mainLoop ids =>
      cases ids with
      | nil =>
        rw [exec_mainLoop_nil] at h
        simp only [Option.some.injEq, Prod.mk.injEq] at h
        obtain ⟨h1, _, _⟩ := h
        subst h1
        exact ⟨hq, hd⟩
      | cons id rest =>
        cases hp : getAssoc s.isPending id with
        | true =>
          rw [exec_mainLoop_pending g rest hp] at h
          exact ih s (Task.mainLoop rest) s' tr e hd hq trivial h
        | false =>
          cases hi : exec g s (Task.invoke id) with
          | none => simp [exec, hp, hi] at h
          | some ri =>
            obtain ⟨s2, tr0, e0⟩ := ri
            have hsub := ih s (Task.invoke id) s2 tr0 e0 hd hq hp hi
            cases e0 with
            | some err =>
              rw [exec_mainLoop_invoke_err rest hp hi] at h
              simp only [Option.some.injEq, Prod.mk.injEq] at h
              obtain ⟨h1, _, _⟩ := h
              subst h1
              exact hsub
            | none =>
              cases hk : exec g s2 (Task.mainLoop rest) with
              | none => simp [exec, hp, hi, hk] at h
              | some rk =>
                obtain ⟨s3, tr2, e2⟩ := rk
                rw [exec_mainLoop_invoke_ok hp hi hk] at h
                simp only [Option.some.injEq, Prod.mk.injEq] at h
                obtain ⟨h1, _, _⟩ := h
                subst h1
                exact ih s2 (Task.mainLoop rest) s3 tr2 e2 hsub.2 hsub.1 trivial hk
    | doDispatch p =>
      rw [exec_doDispatch_reentrant g p hd] at h
      simp only [Option.some.injEq, Prod.mk.injEq] at h
      obtain ⟨h1, _, _⟩ := h
      subst h1
      exact ⟨hq, hd⟩

/-! ### C8, C9, C3 -/

/-- C8: whenever `isDispatching()` is true — in particular from within a
callback currently being invoked by an in-progress dispatch — calling
`dispatch` fails with `ReentrantDispatchError` and does not start a new
cycle: the state is returned unchanged and no callback is invoked (empty
trace).  The second conjunct runs the scenario end to end: a registered
callback whose body calls `dispatch` makes the whole outer dispatch fail
with `ReentrantDispatchError`, after cleanup. -/
theorem dispatch_reentrant_guard :
    (∀ (P : Type) (f : Nat) (s : Dispatcher P) (p : P), s.isDispatching = true →
      dispatch (f + 1) s p = some (s, [], some DispatchError.reentrantDispatch))
    ∧ (∀ (P : Type) (p q : P) (a : DispatchToken) (f : Nat) (s : Dispatcher P),
      s.isDispatching = false →
      s.callbacks = [(a, fun _ => [Cmd.callDispatch q])] →
      ∃ s', dispatch (f + 5) s p =
          some (s', [(a, some p)], some DispatchError.reentrantDispatch)
        ∧ s'.isDispatching = false ∧ s'.pendingPayload = none) := by
  constructor
  · intro P f s p h
    exact exec_doDispatch_reentrant f p h
  · intro P p q a f s hd hc
    have hkeys : (startDispatching s p).callbacks.map Prod.fst = [a] := by
      show s.callbacks.map Prod.fst = [a]
      rw [hc]
      rfl
    have hp1 : getAssoc (startDispatching s p).isPending a = false := by
      apply getAssoc_foldFalse_mem
      rw [show s.callbacks.map Prod.fst = [a] from by rw [hc]; rfl]
      exact List.mem_singleton.mpr rfl
    have hcb : getKey? (startDispatching s p).callbacks a =
        some (fun _ => [Cmd.callDispatch q]) := by
      show getKey? s.callbacks a = _
      rw [hc]
      simp [getKey?]
    have hdisp1 : (startDispatching s p).isDispatching = true := rfl
    have hre : exec (f + 1)
        { startDispatching s p with
          isPending := setKey (startDispatching s p).isPending a true }
        (Task.doDispatch q) =
        some ({ startDispatching s p with
                isPending := setKey (startDispatching s p).isPending a true },
              [], some DispatchError.reentrantDispatch) :=
      exec_doDispatch_reentrant f q hdisp1
    have hbody := exec_runBody_callDispatch_err ([] : List (Cmd P)) hre
    have hinv := exec_invoke_err hcb hbody
    have hloop := exec_mainLoop_invoke_err ([] : List DispatchToken) hp1 hinv
    have hloop' : exec (f + 4) (startDispatching s p)
        (Task.mainLoop ((startDispatching s p).callbacks.map Prod.fst)) =
        some ({ startDispatching s p with
                isPending := setKey (startDispatching s p).isPending a true },
              [(a, some p)], some DispatchError.reentrantDispatch) := by
      rw [hkeys]
      exact hloop
    exact ⟨_, exec_doDispatch_run hd hloop', rfl, rfl⟩

/-- C8 witness: concrete instances of both conjuncts. -/
theorem dispatch_reentrant_guard_witness :
    dispatch 1 { Dispatcher.init Nat with isDispatching := true } 7 =
      some ({ Dispatcher.init Nat with isDispatching := true }, [],
            some DispatchError.reentrantDispatch)
    ∧ ∃ s', dispatch 5
        { Dispatcher.init Nat with callbacks := [(1, fun _ => [Cmd.callDispatch 9])] } 7 =
        some (s', [(1, some 7)], some DispatchError.reentrantDispatch)
      ∧ s'.isDispatching = false ∧ s'.pendingPayload = none :=
  ⟨dispatch_reentrant_guard.1 Nat 0 _ 7 rfl,
   dispatch_reentrant_guard.2 Nat 7 9 1 0 _ rfl rfl⟩

/-- C9: the guard rails.  `waitFor` outside a dispatch fails with
`NotDispatchingError`; `unregister` of a token with no registered callback
fails with `InvalidTokenError`; and during a dispatch, `waitFor` on a token
that is not registered and not pending fails with `InvalidTokenError`.  In
each case the state is unchanged and no callback runs. -/
theorem guard_rails :
    (∀ (P : Type) (f : Nat) (s : Dispatcher P) (ids : List DispatchToken),
      s.isDispatching = false →
      waitFor (f + 1) s ids = some (s, [], some DispatchError.notDispatching))
    ∧ (∀ (P : Type) (s : Dispatcher P) (id : DispatchToken),
      getKey? s.callbacks id = none →
      unregister s id = (s, some (DispatchError.invalidToken id)))
    ∧ (∀ (P : Type) (f : Nat) (s : Dispatcher P) (id : DispatchToken)
        (rest : List DispatchToken),
      s.isDispatching = true → getAssoc s.isPending id = false →
      getKey? s.callbacks id = none →
      waitFor (f + 2) s (id :: rest) =
        some (s, [], some (DispatchError.invalidToken id))) := by
  refine ⟨?_, ?_, ?_⟩
  · intro P f s ids h
    exact exec_waitAll_not f ids h
  · intro P s id h
    simp [unregister, h]
  · intro P f s id rest hd hp hr
    show exec (f + 1 + 1) s (Task.waitAll (id :: rest)) = _
    rw [exec_waitAll_dispatching (f + 1) (id :: rest) hd]
    exact exec_waitLoop_invalid f rest hp hr

/-- C9 witness: concrete instances of the three guard rails. -/
theorem guard_rails_witness :
    waitFor 1 (Dispatcher.init Nat) [0] =
      some (Dispatcher.init Nat, [], some DispatchError.notDispatching)
    ∧ unregister (Dispatcher.init Nat) 5 =
      (Dispatcher.init Nat, some (DispatchError.invalidToken 5))
    ∧ waitFor 2 { Dispatcher.init Nat with isDispatching := true } [3] =
      some ({ Dispatcher.init Nat with isDispatching := true }, [],
            some (DispatchError.invalidToken 3)) :=
  ⟨guard_rails.1 Nat 0 _ [0] rfl, guard_rails.2.1 Nat _ 5 rfl,
   guard_rails.2.2 Nat 0 _ 3 [] rfl rfl rfl⟩

/-- C3: however `dispatch` finishes — normally or because a callback threw —
the `finally` cleanup runs: afterwards `isDispatching()` is false and
`_pendingPayload` is cleared; the result (trace and error) of the dispatch
loop is propagated unchanged to the caller after that cleanup; and a
subsequent dispatch on the resulting state starts its cycle with every
registered token's `_isPending` and `_isHandled` reset to false. -/
theorem dispatch_cleanup : ∀ (P : Type) (f : Nat) (s s' : Dispatcher P) (p : P)
    (tr : Trace P) (e : Option DispatchError),
    s.isDispatching = false →
    dispatch f s p = some (s', tr, e) →
    s'.isDispatching = false ∧ s'.pendingPayload = none ∧
    (∃ g s2, f = g + 1 ∧
      exec g (startDispatching s p)
        (Task.mainLoop ((startDispatching s p).callbacks.map Prod.fst)) =
        some (s2, tr, e) ∧
      s' = stopDispatching s2) ∧
    (∀ (p2 : P) (id : DispatchToken), id ∈ s'.callbacks.map Prod.fst →
      getAssoc (startDispatching s' p2).isPending id = false ∧
      getAssoc (startDispatching s' p2).isHandled id = false) := by
  intro P f s s' p tr e hd h
  cases f with
  | zero =>
    rw [show dispatch 0 s p = none from rfl] at h
    cases h
  | succ g =>
    cases hl : exec g (startDispatching s p)
        (Task.mainLoop ((startDispatching s p).callbacks.map Prod.fst)) with
    | none =>
      rw [show dispatch (g + 1) s p = exec (g + 1) s (Task.doDispatch p) from rfl] at h
      simp [exec, hd, hl] at h
    | some rl =>
      obtain ⟨s2, tr2, e2⟩ := rl
      rw [show dispatch (g + 1) s p = exec (g + 1) s (Task.doDispatch p) from rfl,
        exec_doDispatch_run hd hl] at h
      simp only [Option.some.injEq, Prod.mk.injEq] at h
      obtain ⟨h1, h2, h3⟩ := h
      subst h1
      subst h2
      subst h3
      refine ⟨rfl, rfl, ⟨g, s2, rfl, hl, rfl⟩, ?_⟩
      intro p2 id hmem
      exact ⟨getAssoc_foldFalse_mem _ _ _ hmem, getAssoc_foldFalse_mem _ _ _ hmem⟩

/-! ### C1: exactly-once delivery in registration order -/

theorem run_skips {P : Type} : ∀ (cmds : List (Cmd P)) (s : Dispatcher P),
    (∀ c ∈ cmds, c = Cmd.skip) →
    exec (cmds.length + 1) s (Task.runBody cmds) = some (s, [], none) := by
  intro cmds
  induction cmds with
  | nil => intro s _; exact exec_runBody_nil 0 s
  | cons c rest ih =>
    intro s hall
    have hc : c = Cmd.skip := hall c (List.mem_cons_self c rest)
    subst hc
    show exec (rest.length + 1 + 1) s (Task.runBody (Cmd.skip :: rest)) = _
    rw [exec_runBody_skip]
    exact ih s (fun c hc => hall c (List.mem_cons_of_mem _ hc))

theorem invoke_skipBody {P : Type} (s : Dispatcher P) (id : DispatchToken)
    (cb : Callback P) (hcb : getKey? s.callbacks id = some cb)
    (hs : ∀ c ∈ cb s.pendingPayload, c = Cmd.skip) :
    exec ((cb s.pendingPayload).length + 2) s (Task.invoke id) =
      some ({ s with isPending := setKey s.isPending id true,
                     isHandled := setKey s.isHandled id true },
            [(id, s.pendingPayload)], none) := by
  have hb := run_skips (cb s.pendingPayload)
    { s with isPending := setKey s.isPending id true } hs
  exact exec_invoke_ok hcb hb

theorem mainLoop_skips {P : Type} : ∀ (ids : List DispatchToken) (s : Dispatcher P),
    ids.Nodup →
    (∀ id ∈ ids, getAssoc s.isPending id = false) →
    (∀ id ∈ ids, ∃ cb, getKey? s.callbacks id = some cb ∧
      ∀ c ∈ cb s.pendingPayload, c = Cmd.skip) →
    ∃ f s2, exec f s (Task.mainLoop ids) =
        some (s2, ids.map (fun id => (id, s.pendingPayload)), none)
      ∧ s2.callbacks = s.callbacks ∧ s2.pendingPayload = s.pendingPayload
      ∧ s2.isDispatching = s.isDispatching := by
  intro ids
  induction ids with
  | nil => intro s _ _ _; exact ⟨1, s, exec_mainLoop_nil 0 s, rfl, rfl, rfl⟩
  | cons id rest ih =>
    intro s hnd hp hcb
    obtain ⟨cb, hcb1, hskip⟩ := hcb id (List.mem_cons_self id rest)
    have hinv := invoke_skipBody s id cb hcb1 hskip
    obtain ⟨g, s3, hg, hcb3, hpp3, hdisp3⟩ := ih
      { s with isPending := setKey s.isPending id true,
               isHandled := setKey s.isHandled id true }
      hnd.of_cons
      (by
        intro x hx
        have hxid : x ≠ id := by
          intro hE
          subst hE
          exact (List.nodup_cons.mp hnd).1 hx
        show getAssoc (setKey s.isPending id true) x = false
        rw [getAssoc_setKey_ne _ _ hxid]
        exact hp x (List.mem_cons_of_mem _ hx))
      (by
        intro x hx
        obtain ⟨cb2, hcb2, hsk2⟩ := hcb x (List.mem_cons_of_mem _ hx)
        exact ⟨cb2, hcb2, hsk2⟩)
    refine ⟨max ((cb s.pendingPayload).length + 2) g + 1, s3, ?_, hcb3, hpp3, hdisp3⟩
    have h1 := exec_mono_le (Nat.le_max_left ((cb s.pendingPayload).length + 2) g) hinv
    have h2 := exec_mono_le (Nat.le_max_right ((cb s.pendingPayload).length + 2) g) hg
    have := exec_mainLoop_invoke_ok (hp id (List.mem_cons_self id rest)) h1 h2
    rw [this]
    rfl

/-- C1: dispatching a payload to a dispatcher whose registered callbacks all
perform only local work (no `waitFor`, no throwing, no nested `dispatch`)
invokes every registered callback exactly once, hands each invocation
exactly the dispatched payload, and performs the invocations in
registration order: the invocation trace is precisely the registry key list
paired with the payload.  (`exec_det` makes this the unique outcome.) -/
theorem dispatch_exactly_once : ∀ (P : Type) (s : Dispatcher P) (p : P),
    s.isDispatching = false →
    (s.callbacks.map Prod.fst).Nodup →
    (∀ kv ∈ s.callbacks, ∀ c ∈ kv.2 (some p), c = Cmd.skip) →
    ∃ f s', dispatch f s p =
        some (s', s.callbacks.map (fun kv => (kv.1, some p)), none)
      ∧ s'.isDispatching = false ∧ s'.pendingPayload = none := by
  intro P s p hd hnd hall
  obtain ⟨g, s2, hg, hcb2, hpp2, hdisp2⟩ := mainLoop_skips
    ((startDispatching s p).callbacks.map Prod.fst) (startDispatching s p)
    hnd
    (fun id hm => getAssoc_foldFalse_mem _ _ _ hm)
    (by
      intro id hm
      obtain ⟨cb, hmem⟩ := exists_of_mem_keys hm
      refine ⟨cb, getKey?_of_mem _ _ _ hmem hnd, ?_⟩
      exact hall (id, cb) hmem)
  refine ⟨g + 1, stopDispatching s2, ?_, rfl, rfl⟩
  show exec (g + 1) s (Task.doDispatch p) = _
  rw [exec_doDispatch_run hd hg]
  show some (stopDispatching s2,
    (s.callbacks.map Prod.fst).map (fun id => (id, some p)), none) = _
  rw [List.map_map]
  rfl

/-- C1 witness: two registered callbacks doing only local work are invoked
exactly once each, in registration order, with the dispatched payload. -/
theorem dispatch_exactly_once_witness :
    ∃ f s', dispatch f
        { Dispatcher.init Nat with
          callbacks := [(1, fun _ => []), (2, fun _ => [Cmd.skip])] } 7 =
        some (s', [(1, some 7), (2, some 7)], none)
      ∧ s'.isDispatching = false ∧ s'.pendingPayload = none := by
  have := dispatch_exactly_once Nat
    { Dispatcher.init Nat with
      callbacks := [(1, fun _ => []), (2, fun _ => [Cmd.skip])] } 7
    rfl (by decide) (by decide)
  simpa using this

/-! ### C5: a throwing callback stays pending and unhandled -/

/-- C5: if the invocation of token `id`'s callback begins (it was not pending,
not handled) and ends by throwing — its own body throwing or an error
propagating out of it — then afterwards `_isPending[id]` is true while
`_isHandled[id]` is false, so that any later `waitFor` reaching `id` in the
same cycle fails with `CircularDependencyError id` instead of re-invoking
or silently skipping the failed callback. -/
theorem callback_throw_leaves_open : ∀ (P : Type) (f : Nat) (s s' : Dispatcher P)
    (id : DispatchToken) (tr : Trace P) (e : DispatchError),
    s.isDispatching = true →
    getAssoc s.isPending id = false →
    getAssoc s.isHandled id = false →
    invokeCallback f s id = some (s', tr, some e) →
    getAssoc s'.isPending id = true ∧ getAssoc s'.isHandled id = false ∧
    (∀ (g : Nat) (rest : List DispatchToken),
      waitFor (g + 2) s' (id :: rest) =
        some (s', [], some (DispatchError.circularDependency id))) := by
  intro P f s s' id tr e hd hp hh h
  have main : getAssoc s'.isPending id = true ∧ getAssoc s'.isHandled id = false ∧
      s'.isDispatching = true := by
    cases f with
    | zero =>
      rw [show invokeCallback 0 s id = none from rfl] at h
      cases h
    | succ g =>
      cases hcb : getKey? s.callbacks id with
      | none =>
        rw [show invokeCallback (g + 1) s id = exec (g + 1) s (Task.invoke id) from rfl,
          exec_invoke_missing g hcb] at h
        simp only [Option.some.injEq, Prod.mk.injEq] at h
        obtain ⟨h1, _, _⟩ := h
        subst h1
        refine ⟨by rw [getAssoc_setKey_self], hh, hd⟩
      | some cb =>
        cases hb : exec g { s with isPending := setKey s.isPending id true }
            (Task.runBody (cb s.pendingPayload)) with
        | none =>
          rw [show invokeCallback (g + 1) s id = exec (g + 1) s (Task.invoke id) from rfl] at h
          simp [exec, hcb, hb] at h
        | some rb =>
          obtain ⟨s2, tr0, e0⟩ := rb
          have hpres := exec_preserve
            (fun t => getAssoc t.isPending id = true ∧ getAssoc t.isHandled id = false)
            (by
              intro t j hq
              by_cases hji : j = id
              · subst hji
                exact ⟨by rw [getAssoc_setKey_self], hq.2⟩
              · refine ⟨?_, hq.2⟩
                show getAssoc (setKey t.isPending j true) id = true
                rw [getAssoc_setKey_ne _ _ (fun hE => hji hE.symm)]
                exact hq.1
            )
            (by
              intro t t2 j hq hpj hq2
              have hji : j ≠ id := by
                intro hE
                subst hE
                rw [hq.1] at hpj
                cases hpj
              refine ⟨hq2.1, ?_⟩
              show getAssoc (setKey t2.isHandled j true) id = false
              rw [getAssoc_setKey_ne _ _ (fun hE => hji hE.symm)]
              exact hq2.2
            )
            g { s with isPending := setKey s.isPending id true }
            (Task.runBody (cb s.pendingPayload)) s2 tr0 e0 hd
            ⟨by rw [show ({ s with isPending := setKey s.isPending id true } :
                Dispatcher P).isPending = setKey s.isPending id true from rfl,
                getAssoc_setKey_self], hh⟩
            trivial hb
          cases e0 with
          | none =>
            rw [show invokeCallback (g + 1) s id = exec (g + 1) s (Task.invoke id) from rfl,
              exec_invoke_ok hcb hb] at h
            simp at h
          | some err =>
            rw [show invokeCallback (g + 1) s id = exec (g + 1) s (Task.invoke id) from rfl,
              exec_invoke_err hcb hb] at h
            simp only [Option.some.injEq, Prod.mk.injEq] at h
            obtain ⟨h1, _, _⟩ := h
            subst h1
            exact ⟨hpres.1.1, hpres.1.2, hpres.2⟩
  refine ⟨main.1, main.2.1, ?_⟩
  intro g rest
  show exec (g + 1 + 1) s' (Task.waitAll (id :: rest)) = _
  rw [exec_waitAll_dispatching (g + 1) (id :: rest) main.2.2]
  exact exec_waitLoop_circular g rest main.1 main.2.1

/-- C5 witness: a callback that throws; afterwards its token is pending,
unhandled, and `waitFor` on it raises the circular-dependency failure. -/
theorem callback_throw_leaves_open_witness :
    getAssoc ({ Dispatcher.init Nat with
      isDispatching := true
      pendingPayload := some 5
      callbacks := [(1, fun _ => [Cmd.throwErr 0])]
      isPending := [(1, true)] } : Dispatcher Nat).isPending 1 = true ∧
    getAssoc ({ Dispatcher.init Nat with
      isDispatching := true
      pendingPayload := some 5
      callbacks := [(1, fun _ => [Cmd.throwErr 0])]
      isPending := [(1, true)] } : Dispatcher Nat).isHandled 1 = false ∧
    (∀ (g : Nat) (rest : List DispatchToken),
      waitFor (g + 2) ({ Dispatcher.init Nat with
        isDispatching := true
        pendingPayload := some 5
        callbacks := [(1, fun _ => [Cmd.throwErr 0])]
        isPending := [(1, true)] } : Dispatcher Nat) (1 :: rest) =
        some ({ Dispatcher.init Nat with
          isDispatching := true
          pendingPayload := some 5
          callbacks := [(1, fun _ => [Cmd.throwErr 0])]
          isPending := [(1, true)] }, [], some (DispatchError.circularDependency 1))) :=
  callback_throw_leaves_open Nat 3
    { Dispatcher.init Nat with
      isDispatching := true
      pendingPayload := some 5
      callbacks := [(1, fun _ => [Cmd.throwErr 0])] }
    { Dispatcher.init Nat with
      isDispatching := true
      pendingPayload := some 5
      callbacks := [(1, fun _ => [Cmd.throwErr 0])]
      isPending := [(1, true)] }
    1 [(1, some 5)] (DispatchError.userError 0) rfl rfl rfl rfl

/-! ### C7: tokens are never minted twice -/

theorem dispatch_preserves_lastID {P : Type} (f : Nat) (s : Dispatcher P) (p : P) :
    ∀ r, dispatch f s p = some r → r.1.lastID = s.lastID := by
  intro r h
  cases f with
  | zero =>
    rw [show dispatch 0 s p = none from rfl] at h
    cases h
  | succ g =>
    cases hd : s.isDispatching with
    | true =>
      rw [show dispatch (g + 1) s p = exec (g + 1) s (Task.doDispatch p) from rfl,
        exec_doDispatch_reentrant g p hd] at h
      simp only [Option.some.injEq] at h
      rw [← h]
    | false =>
      cases hl : exec g (startDispatching s p)
          (Task.mainLoop ((startDispatching s p).callbacks.map Prod.fst)) with
      | none =>
        rw [show dispatch (g + 1) s p = exec (g + 1) s (Task.doDispatch p) from rfl] at h
        simp [exec, hd, hl] at h
      | some rl =>
        obtain ⟨s2, tr, e⟩ := rl
        rw [show dispatch (g + 1) s p = exec (g + 1) s (Task.doDispatch p) from rfl,
          exec_doDispatch_run hd hl] at h
        have hpres := exec_preserve (fun t => t.lastID = s.lastID)
          (fun t j hq => hq) (fun t t2 j _ _ hq2 => hq2)
          g (startDispatching s p)
          (Task.mainLoop ((startDispatching s p).callbacks.map Prod.fst))
          s2 tr e rfl rfl trivial hl
        have hr := Option.some.inj h
        subst hr
        exact hpres.1

theorem unregister_preserves_lastID {P : Type} (s : Dispatcher P) (id : DispatchToken) :
    (unregister s id).1.lastID = s.lastID := by
  by_cases h : (getKey? s.callbacks id).isSome <;> simp [unregister, h]

theorem runOps_minted {P : Type} : ∀ (ops : List (DOp P)) (s : Dispatcher P),
    (∀ x ∈ (runOps s ops).2, s.lastID ≤ x) ∧ ((runOps s ops).2).Nodup := by
  intro ops
  induction ops with
  | nil =>
    intro s
    exact ⟨fun x hx => absurd hx (List.not_mem_nil x), List.nodup_nil⟩
  | cons op rest ih =>
    intro s
    cases op with
    | opRegister cb =>
      have h1 := ih (register s cb).1
      have hlast : (register s cb).1.lastID = s.lastID + 1 := rfl
      constructor
      · intro x hx
        rcases List.mem_cons.mp hx with hx1 | hx2
        · rw [show (runOps s (DOp.opRegister cb :: rest)).2
              = (register s cb).2 :: (runOps (register s cb).1 rest).2 from rfl] at hx
          subst hx1
          exact Nat.le_refl _
        · have := h1.1 x hx2
          rw [hlast] at this
          omega
      · refine List.nodup_cons.mpr ⟨?_, h1.2⟩
        intro hmem
        have := h1.1 _ hmem
        rw [hlast] at this
        have : s.lastID + 1 ≤ (register s cb).2 := this
        have : s.lastID + 1 ≤ s.lastID := this
        omega
    | opUnregister id =>
      have h1 := ih (unregister s id).1
      rw [show (runOps s (DOp.opUnregister id :: rest)).2
          = (runOps (unregister s id).1 rest).2 from rfl]
      refine ⟨?_, h1.2⟩
      intro x hx
      have := h1.1 x hx
      rw [unregister_preserves_lastID] at this
      exact this
    | opDispatch f p =>
      cases hdp : dispatch f s p with
      | none =>
        have h1 := ih s
        constructor
        · intro x hx
          apply h1.1
          simpa [runOps, hdp] using hx
        · have : (runOps s (DOp.opDispatch f p :: rest)).2 = (runOps s rest).2 := by
            simp [runOps, hdp]
          rw [this]
          exact h1.2
      | some r =>
        have h1 := ih r.1
        have hlast := dispatch_preserves_lastID f s p r hdp
        have heq : (runOps s (DOp.opDispatch f p :: rest)).2 = (runOps r.1 rest).2 := by
          simp [runOps, hdp]
        rw [heq]
        refine ⟨?_, h1.2⟩
        intro x hx
        have := h1.1 x hx
        rw [hlast] at this
        exact this

/-- C7: over any sequence of top-level operations on a dispatcher instance —
registrations, unregistrations and dispatches, in any order — the tokens
returned by the `register` calls are pairwise distinct: `_lastID` only ever
grows, so no token value is minted twice in the dispatcher's lifetime, even
when callbacks are unregistered in between. -/
theorem register_tokens_unique : ∀ (P : Type) (ops : List (DOp P)) (s : Dispatcher P),
    ((runOps s ops).2).Nodup :=
  fun _ ops s => (runOps_minted ops s).2

/-! ### C2: circular `waitFor` chains are detected -/

theorem cycleBodies_keys {P : Type} (first : DispatchToken) :
    ∀ ts : List DispatchToken, (cycleBodies (P := P) first ts).map Prod.fst = ts
  | [] => rfl
  | [_] => rfl
  | t :: u :: rest => by
    show t :: (cycleBodies first (u :: rest)).map Prod.fst = t :: (u :: rest)
    rw [cycleBodies_keys first (u :: rest)]

theorem chainReg_cons_lift {P : Type} (cbs : List (DispatchToken × Callback P))
    (first t : DispatchToken) (b : Callback P) :
    ∀ l : List DispatchToken, ChainReg cbs first l → (∀ x ∈ l, x ≠ t) →
      ChainReg ((t, b) :: cbs) first l
  | [] => fun _ _ => trivial
  | [u] => fun h hx => by
    have htu : ¬ (t = u) := fun hE => hx u (List.mem_singleton.mpr rfl) hE.symm
    show (if t = u then some b else getKey? cbs u) = some (chainBody first)
    rw [if_neg htu]
    exact h
  | u :: v :: rest => fun h hx => by
    have h' : getKey? cbs u = some (chainBody v) ∧ ChainReg cbs first (v :: rest) := h
    have htu : ¬ (t = u) := fun hE => hx u (List.mem_cons_self u (v :: rest)) hE.symm
    show (if t = u then some b else getKey? cbs u) = some (chainBody v) ∧
      ChainReg ((t, b) :: cbs) first (v :: rest)
    refine ⟨by rw [if_neg htu]; exact h'.1, ?_⟩
    exact chainReg_cons_lift cbs first t b (v :: rest) h'.2
      (fun x hxm => hx x (List.mem_cons_of_mem _ hxm))

theorem chainReg_cycle {P : Type} (first : DispatchToken) :
    ∀ ts : List DispatchToken, ts.Nodup → ChainReg (cycleBodies (P := P) first ts) first ts
  | [] => fun _ => trivial
  | [t] => fun _ => by
    show (if t = t then some (chainBody first) else none) = some (chainBody (P := P) first)
    rw [if_pos rfl]
  | t :: u :: rest => fun hnd => by
    have h1 : ChainReg (cycleBodies (P := P) first (u :: rest)) first (u :: rest) :=
      chainReg_cycle first (u :: rest) hnd.of_cons
    have h2 := chainReg_cons_lift (cycleBodies (P := P) first (u :: rest)) first t
      (chainBody u) (u :: rest) h1
      (fun x hx hE => (List.nodup_cons.mp hnd).1 (hE ▸ hx))
    show (if t = t then some (chainBody u) else getKey? (cycleBodies first (u :: rest)) t) =
        some (chainBody u) ∧
      ChainReg ((t, chainBody u) :: cycleBodies first (u :: rest)) first (u :: rest)
    exact ⟨by rw [if_pos rfl], h2⟩

theorem chainReg_head {P : Type} (cbs : List (DispatchToken × Callback P))
    (first : DispatchToken) :
    ∀ (v : DispatchToken) (rest : List DispatchToken),
      ChainReg cbs first (v :: rest) → ∃ b, getKey? cbs v = some b
  | _, [] => fun h => ⟨chainBody first, h⟩
  | _, w :: _ => fun h => ⟨chainBody w, h.1⟩

/-- The heart of C2: from a state in which `t0` is pending but not handled
(its invocation is open on the call stack), invoking the head of a chain of
callbacks that each `waitFor` the next, the last waiting for `t0`,
propagates `CircularDependencyError t0` out of the invocation. -/
theorem chain_blows {P : Type} (t0 : DispatchToken) :
    ∀ (l' : List DispatchToken) (u : DispatchToken) (s : Dispatcher P),
    s.isDispatching = true →
    getAssoc s.isPending t0 = true →
    getAssoc s.isHandled t0 = false →
    (∀ x ∈ u :: l', getAssoc s.isPending x = false) →
    ChainReg s.callbacks t0 (u :: l') →
    (u :: l').Nodup →
    ∃ f s' tr, exec f s (Task.invoke u) =
      some (s', tr, some (DispatchError.circularDependency t0)) := by
  intro l'
  induction l' with
  | nil =>
    intro u s hd hp0 hh0 hpl hreg _
    have hcb : getKey? s.callbacks u = some (chainBody t0) := hreg
    have hut0 : t0 ≠ u := by
      intro hE
      have := hpl u (List.mem_singleton.mpr rfl)
      rw [← hE, hp0] at this
      cases this
    have hp1 : getAssoc ({ s with isPending := setKey s.isPending u true} :
        Dispatcher P).isPending t0 = true := by
      show getAssoc (setKey s.isPending u true) t0 = true
      rw [getAssoc_setKey_ne _ _ hut0]
      exact hp0
    have hcirc := exec_waitLoop_circular (s := { s with isPending := setKey s.isPending u true})
      0 [] hp1 hh0
    have hdisp2 : ({ s with isPending := setKey s.isPending u true} :
        Dispatcher P).isDispatching = true := hd
    have hwa : exec 2 { s with isPending := setKey s.isPending u true}
        (Task.waitAll [t0]) = some ({ s with isPending := setKey s.isPending u true},
          [], some (DispatchError.circularDependency t0)) := by
      rw [exec_waitAll_dispatching 1 [t0] hdisp2]
      exact hcirc
    have hbody := exec_runBody_waitFor_err ([] : List (Cmd P)) hwa
    have hinv := exec_invoke_err hcb hbody
    exact ⟨4, _, _, hinv⟩
  | cons v rest ih =>
    intro u s hd hp0 hh0 hpl hreg hnd
    have hcb : getKey? s.callbacks u = some (chainBody v) := hreg.1
    have hut0 : t0 ≠ u := by
      intro hE
      have := hpl u (List.mem_cons_self u (v :: rest))
      rw [← hE, hp0] at this
      cases this
    have hp01 : getAssoc ({ s with isPending := setKey s.isPending u true} :
        Dispatcher P).isPending t0 = true := by
      show getAssoc (setKey s.isPending u true) t0 = true
      rw [getAssoc_setKey_ne _ _ hut0]
      exact hp0
    have hpl1 : ∀ x ∈ v :: rest, getAssoc ({ s with
        isPending := setKey s.isPending u true} : Dispatcher P).isPending x = false := by
      intro x hx
      have hxu : x ≠ u := by
        intro hE
        exact (List.nodup_cons.mp hnd).1 (hE ▸ hx)
      show getAssoc (setKey s.isPending u true) x = false
      rw [getAssoc_setKey_ne _ _ hxu]
      exact hpl x (List.mem_cons_of_mem _ hx)
    obtain ⟨g, s', tr, hg⟩ := ih v { s with isPending := setKey s.isPending u true}
      hd hp01 hh0 hpl1 hreg.2 hnd.of_cons
    obtain ⟨b, hb⟩ := chainReg_head _ t0 v rest hreg.2
    have hrv : (getKey? ({ s with isPending := setKey s.isPending u true} :
        Dispatcher P).callbacks v).isNone = false := by
      show (getKey? s.callbacks v).isNone = false
      rw [hb]
      rfl
    have hwl := exec_waitLoop_invoke_err ([] : List DispatchToken)
      (hpl1 v (List.mem_cons_self v rest)) hrv hg
    have hdisp2 : ({ s with isPending := setKey s.isPending u true} :
        Dispatcher P).isDispatching = true := hd
    have hwa : exec (g + 2) { s with isPending := setKey s.isPending u true}
        (Task.waitAll [v]) =
        some (s', tr, some (DispatchError.circularDependency t0)) := by
      rw [exec_waitAll_dispatching (g + 1) [v] hdisp2]
      exact hwl
    have hbody := exec_runBody_waitFor_err ([] : List (Cmd P)) hwa
    have hinv := exec_invoke_err hcb hbody
    exact ⟨g + 4, s', _, hinv⟩

/-- C2: a registry forming a `waitFor` cycle — `t0` waits for the next token,
each waits for its successor, and the last waits for `t0` again (the
two-element case is the direct A↔B cycle; longer chains are the transitive
case) — makes any dispatch fail with `CircularDependencyError t0`:  `t0` is
exactly the token whose callback invocation is still open on the call
stack when the cycle closes (it heads the invocation trace and is never
completed).  The dispatch still runs its cleanup (`isDispatching` false,
payload cleared) before the error reaches the caller. -/
theorem cycle_detected : ∀ (P : Type) (p : P) (t0 : DispatchToken)
    (rest : List DispatchToken) (s : Dispatcher P),
    s.isDispatching = false →
    s.callbacks = cycleBodies t0 (t0 :: rest) →
    (t0 :: rest).Nodup →
    ∃ f s' tr, dispatch f s p =
        some (s', (t0, some p) :: tr, some (DispatchError.circularDependency t0))
      ∧ s'.isDispatching = false ∧ s'.pendingPayload = none := by
  intro P p t0 rest s hd hc hnd
  have hkeys : (startDispatching s p).callbacks.map Prod.fst = t0 :: rest := by
    show s.callbacks.map Prod.fst = t0 :: rest
    rw [hc, cycleBodies_keys]
  have hreg : ChainReg (startDispatching s p).callbacks t0 (t0 :: rest) := by
    show ChainReg s.callbacks t0 (t0 :: rest)
    rw [hc]
    exact chainReg_cycle t0 (t0 :: rest) hnd
  have hpall : ∀ x ∈ t0 :: rest, getAssoc (startDispatching s p).isPending x = false := by
    intro x hx
    apply getAssoc_foldFalse_mem
    rw [show s.callbacks.map Prod.fst = t0 :: rest from by rw [hc, cycleBodies_keys]]
    exact hx
  have hh1 : getAssoc (startDispatching s p).isHandled t0 = false := by
    apply getAssoc_foldFalse_mem
    rw [show s.callbacks.map Prod.fst = t0 :: rest from by rw [hc, cycleBodies_keys]]
    exact List.mem_cons_self t0 rest
  have hdisp1 : (startDispatching s p).isDispatching = true := rfl
  have hp2self : getAssoc ({ startDispatching s p with
      isPending := setKey (startDispatching s p).isPending t0 true} :
      Dispatcher P).isPending t0 = true := by
    show getAssoc (setKey (startDispatching s p).isPending t0 true) t0 = true
    rw [getAssoc_setKey_self]
  cases rest with
  | nil =>
    have hcb : getKey? (startDispatching s p).callbacks t0 = some (chainBody t0) := hreg
    have hcirc := exec_waitLoop_circular
      (s := { startDispatching s p with
        isPending := setKey (startDispatching s p).isPending t0 true})
      0 [] hp2self hh1
    have hdisp2 : ({ startDispatching s p with
        isPending := setKey (startDispatching s p).isPending t0 true} :
        Dispatcher P).isDispatching = true := hdisp1
    have hwa : exec 2 { startDispatching s p with
        isPending := setKey (startDispatching s p).isPending t0 true}
        (Task.waitAll [t0]) =
        some ({ startDispatching s p with
          isPending := setKey (startDispatching s p).isPending t0 true},
          [], some (DispatchError.circularDependency t0)) := by
      rw [exec_waitAll_dispatching 1 [t0] hdisp2]
      exact hcirc
    have hbody := exec_runBody_waitFor_err ([] : List (Cmd P)) hwa
    have hinv := exec_invoke_err hcb hbody
    have hloop := exec_mainLoop_invoke_err ([] : List DispatchToken)
      (hpall t0 (List.mem_cons_self t0 [])) hinv
    have hloop' : exec 5 (startDispatching s p)
        (Task.mainLoop ((startDispatching s p).callbacks.map Prod.fst)) =
        some ({ startDispatching s p with
          isPending := setKey (startDispatching s p).isPending t0 true},
          [(t0, some p)], some (DispatchError.circularDependency t0)) := by
      rw [hkeys]
      exact hloop
    exact ⟨6, _, [], exec_doDispatch_run hd hloop', rfl, rfl⟩
  | cons v rest' =>
    have hcb : getKey? (startDispatching s p).callbacks t0 = some (chainBody v) := hreg.1
    have hpl2 : ∀ x ∈ v :: rest', getAssoc ({ startDispatching s p with
        isPending := setKey (startDispatching s p).isPending t0 true} :
        Dispatcher P).isPending x = false := by
      intro x hx
      have hxt0 : x ≠ t0 := by
        intro hE
        exact (List.nodup_cons.mp hnd).1 (hE ▸ hx)
      show getAssoc (setKey (startDispatching s p).isPending t0 true) x = false
      rw [getAssoc_setKey_ne _ _ hxt0]
      exact hpall x (List.mem_cons_of_mem _ hx)
    obtain ⟨g, s', tr, hg⟩ := chain_blows t0 rest' v
      { startDispatching s p with
        isPending := setKey (startDispatching s p).isPending t0 true}
      hdisp1 hp2self hh1 hpl2 hreg.2 hnd.of_cons
    obtain ⟨b, hb⟩ := chainReg_head _ t0 v rest' hreg.2
    have hrv : (getKey? ({ startDispatching s p with
        isPending := setKey (startDispatching s p).isPending t0 true} :
        Dispatcher P).callbacks v).isNone = false := by
      show (getKey? (startDispatching s p).callbacks v).isNone = false
      rw [hb]
      rfl
    have hwl := exec_waitLoop_invoke_err ([] : List DispatchToken)
      (hpl2 v (List.mem_cons_self v rest')) hrv hg
    have hdisp2 : ({ startDispatching s p with
        isPending := setKey (startDispatching s p).isPending t0 true} :
        Dispatcher P).isDispatching = true := hdisp1
    have hwa : exec (g + 2) { startDispatching s p with
        isPending := setKey (startDispatching s p).isPending t0 true}
        (Task.waitAll [v]) =
        some (s', tr, some (DispatchError.circularDependency t0)) := by
      rw [exec_waitAll_dispatching (g + 1) [v] hdisp2]
      exact hwl
    have hbody := exec_runBody_waitFor_err ([] : List (Cmd P)) hwa
    have hinv := exec_invoke_err hcb hbody
    have hloop := exec_mainLoop_invoke_err (v :: rest')
      (hpall t0 (List.mem_cons_self t0 (v :: rest'))) hinv
    have hloop' : exec (g + 5) (startDispatching s p)
        (Task.mainLoop ((startDispatching s p).callbacks.map Prod.fst)) =
        some (s', (t0, some p) :: tr, some (DispatchError.circularDependency t0)) := by
      rw [hkeys]
      exact hloop
    exact ⟨g + 6, _, tr, exec_doDispatch_run hd hloop', rfl, rfl⟩

/-- C2 witness: the direct two-token cycle (1 waits for 2, 2 waits for 1). -/
theorem cycle_detected_witness :
    ∃ f s' tr, dispatch f
        { Dispatcher.init Nat with callbacks := cycleBodies 1 [1, 2] } 5 =
        some (s', (1, some 5) :: tr, some (DispatchError.circularDependency 1))
      ∧ s'.isDispatching = false ∧ s'.pendingPayload = none :=
  cycle_detected Nat 5 1 [2]
    { Dispatcher.init Nat with callbacks := cycleBodies 1 [1, 2] }
    rfl rfl (by decide)

/-! ### C4: no double invocation through `waitFor` -/

/-- C4: two different callbacks (`a` and `b`, registered in that order before
`t`) both `waitFor` the same token `t`.  The dispatch invokes `t` exactly
once: `a`'s `waitFor` invokes it, and when `b`'s `waitFor` reaches `t` it
finds it already pending and already handled, and returns without
re-invoking it and without an error.  The invocation trace is
`[a, t, b]`, each exactly once with the dispatched payload, and the
dispatch returns without error. -/
theorem waitFor_no_double_invoke : ∀ (P : Type) (p : P) (a b t : DispatchToken)
    (f : Nat) (s : Dispatcher P),
    a ≠ b → a ≠ t → b ≠ t →
    s.isDispatching = false →
    s.callbacks = [(a, fun _ => [Cmd.waitFor [t]]), (b, fun _ => [Cmd.waitFor [t]]),
                   (t, fun _ => [])] →
    (dispatch (f + 8) s p).map (fun r => (r.2.1, r.2.2)) =
      some ([(a, some p), (t, some p), (b, some p)], none) := by
  intro P p a b t f s hab hat hbt hd hc
  have hba : b ≠ a := fun h => hab h.symm
  have hta : t ≠ a := fun h => hat h.symm
  have htb : t ≠ b := fun h => hbt h.symm
  show (exec (f + 1 + 1 + 1 + 1 + 1 + 1 + 1 + 1) s (Task.doDispatch p)).map
    (fun r => (r.2.1, r.2.2)) = _
  simp [exec, startDispatching, stopDispatching, getAssoc, getKey?_setKey_self,
    getKey?_setKey_ne, getKey?, setKey, hc, hd, hab, hat, hbt, hba, hta, htb]

/-- C4 witness: tokens 1 and 2 both wait for token 3. -/
theorem waitFor_no_double_invoke_witness :
    (dispatch 8 { Dispatcher.init Nat with
      callbacks := [(1, fun _ => [Cmd.waitFor [3]]), (2, fun _ => [Cmd.waitFor [3]]),
                    (3, fun _ => [])] } 7).map (fun r => (r.2.1, r.2.2)) =
      some ([(1, some 7), (3, some 7), (2, some 7)], none) :=
  waitFor_no_double_invoke Nat 7 1 2 3 0 _ (by decide) (by decide) (by decide) rfl rfl

/-! ### C6: the pending/handled maps keep stale entries (corrected) -/

/-- C6 counterexample: register a callback (token 1), dispatch, unregister it,
register a new callback (token 2) whose body is `waitFor([1])`.  At the
start of the next dispatch the `_isPending` map still contains the stale
entry `1 ↦ true` although token 1 is no longer registered — contradicting
"exactly one entry per currently-registered callback, no entry for a token
that is not currently registered, fully reset at the start of each new
dispatch".  The stale entry is even observable: `waitFor([1])` during the
second dispatch silently skips (stale pending ∧ handled) instead of
failing with `InvalidTokenError`, so the dispatch succeeds. -/
theorem stale_entries_counterexample :
    let s1 := (register (Dispatcher.init Nat) (fun _ => [])).1
    let s2 := ((dispatch 4 s1 7).getD (s1, [], none)).1
    let s3 := (unregister s2 1).1
    let s4 := (register s3 (fun _ => [Cmd.waitFor [1]])).1
    (dispatch 4 s1 7).map (fun r => (r.2.1, r.2.2)) = some ([(1, some 7)], none) ∧
    getKey? (startDispatching s4 9).isPending 1 = some true ∧
    (getKey? s4.callbacks 1).isNone = true ∧
    (dispatch 10 s4 9).map (fun r => (r.2.1, r.2.2)) = some ([(2, some 9)], none) := by
  decide

/-- C6 amended: at the start of each dispatch, `_isPending` and `_isHandled`
contain an entry explicitly set to `false` for every currently-registered
callback; but entries of tokens unregistered earlier may persist from
previous cycles (see the counterexample), so the maps are not fully
cleared between dispatches. -/
theorem startDispatching_resets_registered : ∀ (P : Type) (s : Dispatcher P) (p : P)
    (id : DispatchToken), id ∈ s.callbacks.map Prod.fst →
    getKey? (startDispatching s p).isPending id = some false ∧
    getKey? (startDispatching s p).isHandled id = some false := by
  intro P s p id h
  exact ⟨getKey?_foldFalse_mem _ _ _ h, getKey?_foldFalse_mem _ _ _ h⟩

/-- C6 amended witness. -/
theorem startDispatching_resets_registered_witness :
    getKey? (startDispatching { Dispatcher.init Nat with
      callbacks := [(1, fun _ => [])] } 5).isPending 1 = some false ∧
    getKey? (startDispatching { Dispatcher.init Nat with
      callbacks := [(1, fun _ => [])] } 5).isHandled 1 = some false :=
  startDispatching_resets_registered Nat
    { Dispatcher.init Nat with callbacks := [(1, fun _ => [])] } 5 1 (by decide)

/-! ### C10: `FluxReduceStore.__invokeOnDispatch` -/

/-- C10: if `reduce` returns `undefined` the store's dispatch callback fails
its invariant before any state update or change notification (`_state` is
untouched, nothing emitted); under the precondition that `reduce` never
returns `undefined` that failure branch is unreachable; and whenever
`reduce` returns a state `areEqual` to the starting state, `_state` is left
unchanged and no change event is emitted. -/
theorem reduce_store_invokeOnDispatch : ∀ (S A : Type) (st : FluxReduceStore S A) (a : A),
    (st.reduce st.state a = none →
      invokeOnDispatch st a = ({ st with changed := false }, none))
    ∧ ((∀ s2 : S, st.reduce s2 a ≠ none) → (invokeOnDispatch st a).2 ≠ none)
    ∧ (∀ e : S, st.reduce st.state a = some e → st.areEqual st.state e = true →
      invokeOnDispatch st a = ({ st with changed := false }, some false)) := by
  intro S A st a
  refine ⟨?_, ?_, ?_⟩
  · intro h
    simp [invokeOnDispatch, h]
  · intro hall
    cases hre : st.reduce st.state a with
    | none => exact absurd hre (hall st.state)
    | some e =>
      simp [invokeOnDispatch, hre]
  · intro e h1 h2
    simp [invokeOnDispatch, h1, h2]

/-- C10 witness: a store whose `reduce` returns `undefined`; one whose
`reduce` is total; and the unchanged-state case. -/
theorem reduce_store_invokeOnDispatch_witness :
    (invokeOnDispatch
        ({ reduce := fun _ _ => none, areEqual := fun x y => x == y,
           state := 0, changed := true } : FluxReduceStore Nat Nat) 3 =
      ({ reduce := fun _ _ => none, areEqual := fun x y => x == y,
         state := 0, changed := false }, none))
    ∧ ((invokeOnDispatch
        ({ reduce := fun s _ => some s, areEqual := fun x y => x == y,
           state := 0, changed := true } : FluxReduceStore Nat Nat) 3).2 ≠ none)
    ∧ (invokeOnDispatch
        ({ reduce := fun s _ => some s, areEqual := fun x y => x == y,
           state := 0, changed := true } : FluxReduceStore Nat Nat) 3 =
      ({ reduce := fun s _ => some s, areEqual := fun x y => x == y,
         state := 0, changed := false }, some false)) :=
  ⟨(reduce_store_invokeOnDispatch Nat Nat _ 3).1 rfl,
   (reduce_store_invokeOnDispatch Nat Nat _ 3).2.1 (fun _ h => Option.noConfusion h),
   (reduce_store_invokeOnDispatch Nat Nat _ 3).2.2 0 rfl rfl⟩

/-- C3 witness: cleanup after a dispatch on a dispatcher with an empty
registry (trace `[]`, no error, via a 0-step loop). -/
theorem dispatch_cleanup_witness :
    (Dispatcher.init Nat).isDispatching = false ∧
    (Dispatcher.init Nat).pendingPayload = none ∧
    (∃ g s2, (2 : Nat) = g + 1 ∧
      exec g (startDispatching (Dispatcher.init Nat) 7)
        (Task.mainLoop (((startDispatching (Dispatcher.init Nat) 7)).callbacks.map Prod.fst)) =
        some (s2, [], none) ∧
      Dispatcher.init Nat = stopDispatching s2) ∧
    (∀ (p2 : Nat) (id : DispatchToken), id ∈ (Dispatcher.init Nat).callbacks.map Prod.fst →
      getAssoc (startDispatching (Dispatcher.init Nat) p2).isPending id = false ∧
      getAssoc (startDispatching (Dispatcher.init Nat) p2).isHandled id = false) :=
  dispatch_cleanup Nat 2 (Dispatcher.init Nat) (Dispatcher.init Nat) 7 [] none rfl rfl

end Flux
